import Mathlib

/-!
Shallow embedding of `src/pokemonApi.py`, a proof-of-concept comparing a
concurrent (httpx + asyncio) and a sequential (requests) pipeline that both
fetch Pokémon names page by page and then per-name detail records.

Modelling conventions:

* HTTP is modelled by a deterministic `Server` oracle that maps each request
  the code can issue (root listing, offset-parameterised page, per-name
  detail) to a status code and a well-formed JSON body already projected to
  the fields the code reads (`count`, `results[*].name`, the detail record).
  The calls to `json.loads` plus the field projections are folded into the
  typed oracle fields.
* Every run also produces a trace of `Event`s: client/session lifecycle,
  each HTTP request tagged with the connection it went through, and the
  `print` diagnostics (quote characters in messages are elided).
* The async functions all receive the one `httpx.AsyncClient` opened by
  `get_pokemons_async`; this is the `HttpConn.sharedClient` tag.  The sync
  functions call the module-level `requests.get`, which opens a fresh
  connection per call; this is modelled by threading a counter and tagging
  call number `k` with `HttpConn.freshSession k`.
* `asyncio.gather` returns results positionally in submission order, so a
  gather over a list of coroutines is embedded as `List.map` over the
  submitted arguments.
* Python `int` is `Int`; a missing optional argument (`None` default) is
  `Option.none`.  A Python dict is an insertion-ordered association list
  (`dictInsert` replaces the value of an existing key in place and appends a
  new key at the end, exactly like dict assignment).  `d["name"]` on a dict
  without that key raises `KeyError`, modelled by `Except PyError`.
-/

/-- A detail record: the JSON object returned by the detail endpoint,
as a key/value association list (values kept opaque as strings). -/
abbrev DetailRec : Type := List (String × String)

/-- The result mapping built by the aggregators: Python dict from name to
detail record, in insertion order. -/
abbrev PokeDict : Type := List (String × DetailRec)

/-- Python exceptions that the embedded code can raise. -/
inductive PyError where
  | keyError (key : String)
deriving DecidableEq, Repr

instance {ε α : Type} [DecidableEq ε] [DecidableEq α] : DecidableEq (Except ε α) := fun x y =>
  match x, y with
  | Except.ok a, Except.ok b =>
    if h : a = b then isTrue (h ▸ rfl) else isFalse (fun hc => h (Except.ok.inj hc))
  | Except.error a, Except.error b =>
    if h : a = b then isTrue (h ▸ rfl) else isFalse (fun hc => h (Except.error.inj hc))
  | Except.ok _, Except.error _ => isFalse (fun hc => Except.noConfusion hc)
  | Except.error _, Except.ok _ => isFalse (fun hc => Except.noConfusion hc)

/-- The connection an HTTP request goes through: either the one
`httpx.AsyncClient` passed around by the async pipeline, or a fresh
single-use session opened by a bare `requests.get` call. -/
inductive HttpConn where
  | sharedClient (id : Nat)
  | freshSession (id : Nat)
deriving DecidableEq, Repr

/-- The requests the code can issue, identified by endpoint and parameters
(the URL is a function of these, see `pageUrl` / `detailUrl`). -/
inductive Request where
  | root
  | page (offset : Int)
  | detail (name : String)
deriving DecidableEq, Repr

/-- Observable events of a run: client lifecycle, HTTP requests with the
connection used, and printed diagnostics. -/
inductive Event where
  | openClient (id : Nat)
  | request (conn : HttpConn) (req : Request)
  | log (msg : String)
  | closeClient (id : Nat)
deriving DecidableEq, Repr

/-- The deterministic HTTP oracle: statuses and (already JSON-decoded)
bodies for the three endpoint shapes the code queries. -/
structure Server where
  rootStatus : Nat
  rootCount : Int
  pageStatus : Int → Nat
  pageNames : Int → List String
  detailStatus : String → Nat
  detailFields : String → List (String × String)

def POKEMON_BASE_URL : String := "https://pokeapi.co/api/v2/pokemon"

def POKE_PER_PAGE : Int := 10

def POKE_DETAILS_TIMEOUT : Nat := 30

/-- URL of one listing page, the f-string interpolating `offset` and `POKE_PER_PAGE` after `POKEMON_BASE_URL`. -/
def pageUrl (offset : Int) : String :=
  POKEMON_BASE_URL ++ "/?offset=" ++ toString offset ++ "&limit=" ++ toString POKE_PER_PAGE

/-- URL of one detail record, the f-string appending `name` to `POKEMON_BASE_URL`. -/
def detailUrl (name : String) : String :=
  POKEMON_BASE_URL ++ "/" ++ name

/-- The diagnostic printed on every non-200 response. -/
def apiErrorMsg : String := "Api did not respond with status code 200!"

/-- Diagnostic printed before each page request. -/
def retrievingMsg (url : String) : String := "retrieving url: " ++ url

/-- Diagnostic printed before each detail request. -/
def retrievingDetailsMsg (url : String) : String := "retrieving details from url: " ++ url

/-- Diagnostic printed after inserting a record into the dictionary
(the quotes around the name in the Python f-string are elided). -/
def savedMsg (name : String) : String := "Pokemon " ++ name ++ " saved in dictionary..."

/-- Python dict assignment `d[k] = v`: replace the value in place if the key
exists (keeping its position), otherwise append the new binding. -/
def dictInsert (d : PokeDict) (k : String) (v : DetailRec) : PokeDict :=
  if d.any (fun p => p.1 = k) then
    d.map (fun p => if p.1 = k then (k, v) else p)
  else
    d ++ [(k, v)]

/-- The `while offset < nb_poke: ...; offset += POKE_PER_PAGE` loop of both
name listers, collecting the offsets for which a page request is issued.
Structured with an explicit fuel so it computes; `collectOffsets` supplies a
fuel that always suffices (the loop runs at most `⌈nb/10⌉ ≤ nb.toNat` times). -/
def whileOffsets : Nat → Int → Int → List Int
  | 0, _, _ => []
  | fuel + 1, offset, nb =>
    if offset < nb then offset :: whileOffsets fuel (offset + POKE_PER_PAGE) nb
    else []

/-- All page offsets requested for a cutoff of `nb`: `0, 10, 20, …  < nb`. -/
def collectOffsets (nb : Int) : List Int := whileOffsets nb.toNat 0 nb

/-- Embedding of the line `nb_poke = json_obj["count"] if max_pokemons is None else max_pokemons`. -/
def cutoffOf (srv : Server) (max_pokemons : Option Int) : Int :=
  match max_pokemons with
  | none => srv.rootCount
  | some m => m

/-- Embedding of `get_pokemon_page_async(client, url)` at `url = pageUrl offset`:
prints, GETs through the shared client, returns `[]` on non-200 status and
the page names otherwise. -/
def get_pokemon_page_async (srv : Server) (client : Nat) (offset : Int) :
    List String × List Event :=
  let ev := [Event.log (retrievingMsg (pageUrl offset)),
             Event.request (HttpConn.sharedClient client) (Request.page offset)]
  if srv.pageStatus offset ≠ 200 then
    ([], ev ++ [Event.log apiErrorMsg])
  else
    (srv.pageNames offset, ev)

/-- Embedding of `get_pokemon_details_async(client, url)` at `url = detailUrl name`:
prints, GETs through the shared client, returns `{}` on non-200 status and
the decoded record otherwise. -/
def get_pokemon_details_async (srv : Server) (client : Nat) (name : String) :
    DetailRec × List Event :=
  let ev := [Event.log (retrievingDetailsMsg (detailUrl name)),
             Event.request (HttpConn.sharedClient client) (Request.detail name)]
  if srv.detailStatus name ≠ 200 then
    (([] : List (String × String)), ev ++ [Event.log apiErrorMsg])
  else
    (srv.detailFields name, ev)

/-- Embedding of `get_pokemon_names_async(client, max_pokemons)`: GET the root listing;
on non-200 print and return `[]`; otherwise read `count`, choose the cutoff,
build one page coroutine per offset window and `asyncio.gather` them
(positionally ordered), concatenating the per-page name lists. -/
def get_pokemon_names_async (srv : Server) (client : Nat) (max_pokemons : Option Int) :
    List String × List Event :=
  let evRoot := [Event.request (HttpConn.sharedClient client) Request.root]
  if srv.rootStatus ≠ 200 then
    ([], evRoot ++ [Event.log apiErrorMsg])
  else
    let nb_poke := cutoffOf srv max_pokemons
    let pages := (collectOffsets nb_poke).map (get_pokemon_page_async srv client)
    ((pages.map Prod.fst).flatten, evRoot ++ (pages.map Prod.snd).flatten)

/-- The `for poke_detail in await asyncio.gather(*coroutines)` insertion loop
of `get_pokemons_async` (also the body shape of the sync loop):
`pokemons[poke_detail["name"]] = poke_detail` raises `KeyError` when the
record has no `name` key (which is what the empty record of a failed detail
fetch is). -/
def savePokemons : List DetailRec → PokeDict → Except PyError PokeDict × List Event
  | [], pokemons => (Except.ok pokemons, [])
  | r :: rs, pokemons =>
    match List.lookup "name" r with
    | none => (Except.error (PyError.keyError "name"), [])
    | some nm =>
      let rest := savePokemons rs (dictInsert pokemons nm r)
      (rest.1, Event.log (savedMsg nm) :: rest.2)

/-- Embedding of `get_pokemons_async(number)`: open one `AsyncClient`, list names with
`max_pokemons=number`, gather one detail coroutine per name, then insert each
record keyed by its own `name` field; the client is closed by the
`async with` block even when the insertion loop raises. -/
def get_pokemons_async (srv : Server) (number : Int) :
    Except PyError PokeDict × List Event :=
  let listed := get_pokemon_names_async srv 0 (some number)
  let fetched := listed.1.map (get_pokemon_details_async srv 0)
  let saved := savePokemons (fetched.map Prod.fst) []
  (saved.1, Event.openClient 0 ::
          (listed.2 ++ (fetched.map Prod.snd).flatten ++ saved.2 ++ [Event.closeClient 0]))

/-- Embedding of `get_pokemon_page_sync(url)` at `url = pageUrl offset`: identical logic
to the async page fetcher, but through a fresh `requests.get` session `k`. -/
def get_pokemon_page_sync (srv : Server) (k : Nat) (offset : Int) :
    List String × List Event × Nat :=
  let ev := [Event.log (retrievingMsg (pageUrl offset)),
             Event.request (HttpConn.freshSession k) (Request.page offset)]
  if srv.pageStatus offset ≠ 200 then
    ([], ev ++ [Event.log apiErrorMsg], k + 1)
  else
    (srv.pageNames offset, ev, k + 1)

/-- Embedding of `get_pokemon_details_sync(url)` at `url = detailUrl name`: identical
logic to the async detail fetcher, through a fresh `requests.get` session. -/
def get_pokemon_details_sync (srv : Server) (k : Nat) (name : String) :
    DetailRec × List Event × Nat :=
  let ev := [Event.log (retrievingDetailsMsg (detailUrl name)),
             Event.request (HttpConn.freshSession k) (Request.detail name)]
  if srv.detailStatus name ≠ 200 then
    (([] : List (String × String)), ev ++ [Event.log apiErrorMsg], k + 1)
  else
    (srv.detailFields name, ev, k + 1)

/-- The `while offset < nb_poke: names.extend(get_pokemon_page_sync(...))`
loop of `get_pokemon_names_sync`, threading the fresh-session counter. -/
def namesLoopSync (srv : Server) : Nat → Int → Int → Nat →
    List String × List Event × Nat
  | 0, _, _, k => ([], [], k)
  | fuel + 1, offset, nb, k =>
    if offset < nb then
      let page := get_pokemon_page_sync srv k offset
      let rest := namesLoopSync srv fuel (offset + POKE_PER_PAGE) nb page.2.2
      (page.1 ++ rest.1, page.2.1 ++ rest.2.1, rest.2.2)
    else ([], [], k)

/-- Embedding of `get_pokemon_names_sync(max_pokemons)`: GET the root listing through a
fresh session; on non-200 print and return `[]`; otherwise loop over the
offset windows sequentially, extending the accumulator. -/
def get_pokemon_names_sync (srv : Server) (k : Nat) (max_pokemons : Option Int) :
    List String × List Event × Nat :=
  let evRoot := [Event.request (HttpConn.freshSession k) Request.root]
  if srv.rootStatus ≠ 200 then
    ([], evRoot ++ [Event.log apiErrorMsg], k + 1)
  else
    let nb_poke := cutoffOf srv max_pokemons
    let looped := namesLoopSync srv nb_poke.toNat 0 nb_poke (k + 1)
    (looped.1, evRoot ++ looped.2.1, looped.2.2)

/-- The `for name in get_pokemon_names_sync(...)` loop of
`get_pokemons_sync`: fetch each detail sequentially and insert immediately;
a record without a `name` key raises `KeyError` before any further request. -/
def pokemonsLoopSync (srv : Server) : List String → PokeDict → Nat →
    Except PyError PokeDict × List Event × Nat
  | [], pokemons, k => (Except.ok pokemons, [], k)
  | nm :: names, pokemons, k =>
    let det := get_pokemon_details_sync srv k nm
    match List.lookup "name" det.1 with
    | none => (Except.error (PyError.keyError "name"), det.2.1, det.2.2)
    | some nm2 =>
      let rest := pokemonsLoopSync srv names (dictInsert pokemons nm2 det.1) det.2.2
      (rest.1, det.2.1 ++ Event.log (savedMsg nm2) :: rest.2.1, rest.2.2)

/-- Embedding of `get_pokemons_sync(number)`: list names with `max_pokemons=number`, then
fetch and insert each detail record sequentially. -/
def get_pokemons_sync (srv : Server) (number : Int) :
    Except PyError PokeDict × List Event × Nat :=
  let listed := get_pokemon_names_sync srv 0 (some number)
  let saved := pokemonsLoopSync srv listed.1 [] listed.2.2
  (saved.1, listed.2.1 ++ saved.2.1, saved.2.2)

/-- The detail records fetched by a run of the aggregator with target
`number` (the list `asyncio.gather` hands to the insertion loop). -/
def fetchedDetails (srv : Server) (number : Int) : List DetailRec :=
  ((get_pokemon_names_async srv 0 (some number)).fst).map
    (fun nm => (get_pokemon_details_async srv 0 nm).fst)

/-- The connection of an event, when it is an HTTP request. -/
def connOf (e : Event) : Option HttpConn :=
  match e with
  | Event.request conn _ => some conn
  | _ => none

/-- The offset of an event, when it is a page request. -/
def pageReqOf (e : Event) : Option Int :=
  match e with
  | Event.request _ (Request.page o) => some o
  | _ => none

/-- The name of an event, when it is a detail request. -/
def detailReqOf (e : Event) : Option String :=
  match e with
  | Event.request _ (Request.detail nm) => some nm
  | _ => none

/-- The connections used by the HTTP requests of a trace, in order. -/
def requestConns (tr : List Event) : List HttpConn := tr.filterMap connOf

/-- The offsets of the page requests of a trace, in order. -/
def pageRequests (tr : List Event) : List Int := tr.filterMap pageReqOf

/-- The names of the detail requests of a trace, in order. -/
def detailRequests (tr : List Event) : List String := tr.filterMap detailReqOf

/-- The trace goes through one shared long-lived session: a client is opened
first, closed last, and every request in between uses exactly that client. -/
def usesOneSharedSession (tr : List Event) : Bool :=
  match tr with
  | Event.openClient c :: rest =>
    match rest.getLast? with
    | some (Event.closeClient c2) =>
      c = c2 && (requestConns rest.dropLast).all (fun conn => conn == HttpConn.sharedClient c)
    | _ => false
  | _ => false

example : collectOffsets 25 = [0, 10, 20] := by decide
example : collectOffsets 0 = [] := by decide

/-! ### The sequential pipeline computes the same values as the concurrent one -/

theorem get_pokemon_page_sync_fst (srv : Server) (k c : Nat) (offset : Int) :
    (get_pokemon_page_sync srv k offset).1 = (get_pokemon_page_async srv c offset).1 := by
  simp only [get_pokemon_page_sync, get_pokemon_page_async]
  split <;> rfl

theorem get_pokemon_details_sync_fst (srv : Server) (k c : Nat) (name : String) :
    (get_pokemon_details_sync srv k name).1 = (get_pokemon_details_async srv c name).1 := by
  simp only [get_pokemon_details_sync, get_pokemon_details_async]
  split <;> rfl

theorem namesLoopSync_fst (srv : Server) (c : Nat) (fuel : Nat) :
    ∀ (offset nb : Int) (k : Nat),
    (namesLoopSync srv fuel offset nb k).1 =
      ((whileOffsets fuel offset nb).map
        (fun o => (get_pokemon_page_async srv c o).1)).flatten := by
  induction fuel with
  | zero => intro offset nb k; simp [namesLoopSync, whileOffsets]
  | succ f ih =>
    intro offset nb k
    simp only [namesLoopSync, whileOffsets]
    split
    · simp [ih, get_pokemon_page_sync_fst srv k c offset]
    · simp

theorem get_pokemon_names_sync_fst (srv : Server) (k c : Nat) (max_pokemons : Option Int) :
    (get_pokemon_names_sync srv k max_pokemons).1 =
      (get_pokemon_names_async srv c max_pokemons).1 := by
  simp only [get_pokemon_names_sync, get_pokemon_names_async]
  split
  · rfl
  · simp [collectOffsets, namesLoopSync_fst srv c, List.map_map, Function.comp_def]

theorem pokemonsLoopSync_fst (srv : Server) (names : List String) :
    ∀ (d : PokeDict) (k : Nat),
    (pokemonsLoopSync srv names d k).1 =
      (savePokemons (names.map (fun nm => (get_pokemon_details_async srv 0 nm).1)) d).1 := by
  induction names with
  | nil => intro d k; rfl
  | cons nm rest ih =>
    intro d k
    simp only [pokemonsLoopSync, savePokemons, List.map_cons]
    rw [get_pokemon_details_sync_fst srv k 0 nm]
    cases h : List.lookup "name" ((get_pokemon_details_async srv 0 nm).1) with
    | none => simp [h]
    | some nm2 => simp [h, ih]

theorem get_pokemons_fst_eq (srv : Server) (number : Int) :
    (get_pokemons_sync srv number).1 = (get_pokemons_async srv number).1 := by
  simp only [get_pokemons_sync, get_pokemons_async]
  rw [pokemonsLoopSync_fst, get_pokemon_names_sync_fst srv 0 0]
  simp [List.map_map, Function.comp_def]

/-! ### The offset loop: emptiness, length bounds, membership -/

theorem whileOffsets_eq_nil (fuel : Nat) (offset nb : Int) (h : nb ≤ offset) :
    whileOffsets fuel offset nb = [] := by
  cases fuel with
  | zero => rfl
  | succ f =>
    simp only [whileOffsets]
    rw [if_neg (by omega)]

theorem collectOffsets_nonpos (nb : Int) (h : nb ≤ 0) : collectOffsets nb = [] := by
  unfold collectOffsets
  exact whileOffsets_eq_nil _ _ _ (by omega)

theorem whileOffsets_length_bounds (fuel : Nat) :
    ∀ (offset nb : Int), nb ≤ offset + 10 * fuel →
      nb ≤ offset + 10 * ((whileOffsets fuel offset nb).length : Int) ∧
      (offset < nb → offset + 10 * (((whileOffsets fuel offset nb).length : Int) - 1) < nb) := by
  induction fuel with
  | zero =>
    intro offset nb h
    simp only [whileOffsets, List.length_nil]
    push_cast at h ⊢
    omega
  | succ f ih =>
    intro offset nb h
    by_cases hlt : offset < nb
    · obtain ⟨h1, h2⟩ := ih (offset + POKE_PER_PAGE) nb (by simp only [POKE_PER_PAGE]; push_cast at h ⊢; omega)
      simp only [whileOffsets, if_pos hlt, List.length_cons, POKE_PER_PAGE] at h1 h2 ⊢
      by_cases h3 : nb ≤ offset + 10
      · rw [whileOffsets_eq_nil f _ nb (by omega)]
        simp only [List.length_nil]
        omega
      · have h2x := h2 (by omega)
        push_cast at h1 h2x ⊢
        omega
    · rw [whileOffsets_eq_nil _ _ _ (by omega)]
      simp only [List.length_nil]
      omega

theorem mem_whileOffsets (fuel : Nat) :
    ∀ (offset nb o : Int), nb ≤ offset + 10 * fuel →
      (o ∈ whileOffsets fuel offset nb ↔ (∃ j : Nat, o = offset + 10 * j) ∧ o < nb) := by
  induction fuel with
  | zero =>
    intro offset nb o h
    simp only [whileOffsets, List.not_mem_nil, false_iff]
    rintro ⟨⟨j, rfl⟩, hlt⟩
    push_cast at h
    omega
  | succ f ih =>
    intro offset nb o h
    by_cases hlt : offset < nb
    · simp only [whileOffsets, if_pos hlt, List.mem_cons, POKE_PER_PAGE]
      rw [ih (offset + 10) nb o (by push_cast at h ⊢; omega)]
      constructor
      · rintro (rfl | ⟨⟨j, rfl⟩, hlt2⟩)
        · exact ⟨⟨0, by push_cast; omega⟩, hlt⟩
        · exact ⟨⟨j + 1, by push_cast; omega⟩, hlt2⟩
      · rintro ⟨⟨j, rfl⟩, hlt2⟩
        cases j with
        | zero => left; push_cast; omega
        | succ j2 => right; exact ⟨⟨j2, by push_cast; omega⟩, hlt2⟩
    · rw [whileOffsets_eq_nil _ _ _ (by omega)]
      simp only [List.not_mem_nil, false_iff]
      rintro ⟨⟨j, rfl⟩, hlt2⟩
      omega

theorem mem_collectOffsets (nb o : Int) :
    o ∈ collectOffsets nb ↔ (∃ j : Nat, o = 10 * j) ∧ o < nb := by
  unfold collectOffsets
  rw [mem_whileOffsets nb.toNat 0 nb o (by omega)]
  simp only [zero_add]

theorem collectOffsets_length (N : Nat) (hN : 0 < N) :
    (collectOffsets (N : Int)).length = (N + 9) / 10 := by
  obtain ⟨h1, h2⟩ := whileOffsets_length_bounds (N : Int).toNat 0 (N : Int) (by omega)
  have h2x := h2 (by exact_mod_cast hN)
  unfold collectOffsets
  omega

theorem flatten_map_length_const (l : List Int) (f : Int → List String) (n : Nat)
    (h : ∀ o ∈ l, (f o).length = n) :
    ((l.map f).flatten).length = n * l.length := by
  induction l with
  | nil => simp
  | cons a t ih =>
    simp only [List.map_cons, List.flatten_cons, List.length_append, List.length_cons]
    rw [h a (by simp), ih (fun o ho => h o (by simp [ho]))]
    ring

/-! ### Length of the name list under full pages -/

theorem names_async_length (srv : Server) (c : Nat) (N : Nat)
    (hroot : srv.rootStatus = 200)
    (hpage : ∀ o : Int, srv.pageStatus o = 200)
    (hlen : ∀ o : Int, (srv.pageNames o).length = 10)
    (hN : 0 < N) :
    (get_pokemon_names_async srv c (some (N : Int))).1.length = 10 * ((N + 9) / 10) := by
  simp only [get_pokemon_names_async, cutoffOf]
  rw [if_neg (by simp [hroot])]
  simp only [List.map_map]
  have hall : ∀ o ∈ collectOffsets (N : Int),
      ((Prod.fst ∘ get_pokemon_page_async srv c) o).length = 10 := by
    intro o ho
    simp [get_pokemon_page_async, hpage o, hlen o]
  rw [flatten_map_length_const _ _ 10 hall, collectOffsets_length N hN]

/-! ### Trace extraction: which requests a run issues -/

theorem filterMap_flatten_map_singleton {α β : Type} (f : β → Option α) (l : List α)
    (g : α → List β) (h : ∀ o ∈ l, (g o).filterMap f = [o]) :
    ((l.map g).flatten).filterMap f = l := by
  induction l with
  | nil => simp
  | cons a t ih =>
    simp only [List.map_cons, List.flatten_cons, List.filterMap_append]
    rw [h a (by simp), ih (fun o ho => h o (by simp [ho]))]
    rfl

theorem filterMap_flatten_map_nil {α β γ : Type} (f : β → Option γ) (l : List α)
    (g : α → List β) (h : ∀ o ∈ l, (g o).filterMap f = []) :
    ((l.map g).flatten).filterMap f = [] := by
  induction l with
  | nil => simp
  | cons a t ih =>
    simp only [List.map_cons, List.flatten_cons, List.filterMap_append]
    rw [h a (by simp), ih (fun o ho => h o (by simp [ho]))]
    rfl

theorem pageRequests_page_async (srv : Server) (c : Nat) (offset : Int) :
    pageRequests (get_pokemon_page_async srv c offset).2 = [offset] := by
  simp only [get_pokemon_page_async]
  split <;> simp [pageRequests, pageReqOf]

theorem pageRequests_page_sync (srv : Server) (k : Nat) (offset : Int) :
    pageRequests (get_pokemon_page_sync srv k offset).2.1 = [offset] := by
  simp only [get_pokemon_page_sync]
  split <;> simp [pageRequests, pageReqOf]

theorem detailRequests_page_async (srv : Server) (c : Nat) (offset : Int) :
    detailRequests (get_pokemon_page_async srv c offset).2 = [] := by
  simp only [get_pokemon_page_async]
  split <;> simp [detailRequests, detailReqOf]

theorem detailRequests_details_async (srv : Server) (c : Nat) (name : String) :
    detailRequests (get_pokemon_details_async srv c name).2 = [name] := by
  simp only [get_pokemon_details_async]
  split <;> simp [detailRequests, detailReqOf]

theorem detailRequests_details_sync (srv : Server) (k : Nat) (name : String) :
    detailRequests (get_pokemon_details_sync srv k name).2.1 = [name] := by
  simp only [get_pokemon_details_sync]
  split <;> simp [detailRequests, detailReqOf]

theorem pageRequests_append (a b : List Event) :
    pageRequests (a ++ b) = pageRequests a ++ pageRequests b :=
  List.filterMap_append a b _

theorem detailRequests_append (a b : List Event) :
    detailRequests (a ++ b) = detailRequests a ++ detailRequests b :=
  List.filterMap_append a b _

theorem requestConns_append (a b : List Event) :
    requestConns (a ++ b) = requestConns a ++ requestConns b :=
  List.filterMap_append a b _

theorem pageRequests_names_async (srv : Server) (c : Nat) (max_pokemons : Option Int)
    (h : srv.rootStatus = 200) :
    pageRequests (get_pokemon_names_async srv c max_pokemons).2 =
      collectOffsets (cutoffOf srv max_pokemons) := by
  simp only [get_pokemon_names_async]
  rw [if_neg (by simp [h])]
  simp only [List.map_map, Function.comp_def]
  rw [pageRequests_append]
  have hflat : pageRequests
      ((List.map (fun o => (get_pokemon_page_async srv c o).2)
        (collectOffsets (cutoffOf srv max_pokemons))).flatten) =
      collectOffsets (cutoffOf srv max_pokemons) :=
    filterMap_flatten_map_singleton pageReqOf _ _
      (fun o _ => pageRequests_page_async srv c o)
  rw [hflat]
  simp [pageRequests, pageReqOf]

theorem pageRequests_namesLoopSync (srv : Server) (fuel : Nat) :
    ∀ (offset nb : Int) (k : Nat),
    pageRequests (namesLoopSync srv fuel offset nb k).2.1 = whileOffsets fuel offset nb := by
  induction fuel with
  | zero => intro offset nb k; simp [namesLoopSync, whileOffsets, pageRequests]
  | succ f ih =>
    intro offset nb k
    simp only [namesLoopSync, whileOffsets]
    split
    · rw [pageRequests_append, pageRequests_page_sync, ih]
      rfl
    · simp [pageRequests]

theorem pageRequests_names_sync (srv : Server) (k : Nat) (max_pokemons : Option Int)
    (h : srv.rootStatus = 200) :
    pageRequests (get_pokemon_names_sync srv k max_pokemons).2.1 =
      collectOffsets (cutoffOf srv max_pokemons) := by
  simp only [get_pokemon_names_sync]
  rw [if_neg (by simp [h])]
  rw [pageRequests_append, pageRequests_namesLoopSync]
  simp [pageRequests, pageReqOf, collectOffsets]

theorem detailRequests_page_sync (srv : Server) (k : Nat) (offset : Int) :
    detailRequests (get_pokemon_page_sync srv k offset).2.1 = [] := by
  simp only [get_pokemon_page_sync]
  split <;> simp [detailRequests, detailReqOf]

theorem detailRequests_names_async (srv : Server) (c : Nat) (max_pokemons : Option Int) :
    detailRequests (get_pokemon_names_async srv c max_pokemons).2 = [] := by
  simp only [get_pokemon_names_async]
  split
  · simp [detailRequests, detailReqOf]
  · simp only [detailRequests, List.map_map, Function.comp_def, List.filterMap_append]
    rw [filterMap_flatten_map_nil detailReqOf _ _
      (fun o _ => detailRequests_page_async srv c o)]
    simp [detailReqOf]

theorem detailRequests_namesLoopSync (srv : Server) (fuel : Nat) :
    ∀ (offset nb : Int) (k : Nat),
    detailRequests (namesLoopSync srv fuel offset nb k).2.1 = [] := by
  induction fuel with
  | zero => intro offset nb k; simp [namesLoopSync, detailRequests]
  | succ f ih =>
    intro offset nb k
    simp only [namesLoopSync]
    split
    · rw [detailRequests_append, detailRequests_page_sync, ih]
      rfl
    · simp [detailRequests]

theorem detailRequests_names_sync (srv : Server) (k : Nat) (max_pokemons : Option Int) :
    detailRequests (get_pokemon_names_sync srv k max_pokemons).2.1 = [] := by
  simp only [get_pokemon_names_sync]
  split
  · simp [detailRequests, detailReqOf]
  · rw [detailRequests_append, detailRequests_namesLoopSync]
    simp [detailRequests, detailReqOf]

theorem savePokemons_filterMap_nil {γ : Type} (f : Event → Option γ)
    (hf : ∀ m, f (Event.log m) = none) :
    ∀ (rs : List DetailRec) (d : PokeDict), (savePokemons rs d).2.filterMap f = [] := by
  intro rs
  induction rs with
  | nil => intro d; simp [savePokemons]
  | cons r t ih =>
    intro d
    simp only [savePokemons]
    cases h : List.lookup "name" r with
    | none => simp [h]
    | some nm => simp [h, List.filterMap_cons, hf, ih]

theorem detailRequests_pokemons_async (srv : Server) (number : Int) :
    detailRequests (get_pokemons_async srv number).2 =
      (get_pokemon_names_async srv 0 (some number)).1 := by
  simp only [get_pokemons_async, detailRequests, List.filterMap_cons,
    List.filterMap_append, List.map_map, Function.comp_def]
  rw [filterMap_flatten_map_singleton detailReqOf _ _
    (fun nm _ => detailRequests_details_async srv 0 nm)]
  rw [savePokemons_filterMap_nil detailReqOf (fun m => rfl)]
  have h1 : List.filterMap detailReqOf (get_pokemon_names_async srv 0 (some number)).2 = [] :=
    detailRequests_names_async srv 0 (some number)
  rw [h1]
  simp [detailReqOf]

/-! ### Connections: the async pipeline shares one client, the sync pipeline
opens a fresh session per request -/

theorem requestConns_page_async (srv : Server) (c : Nat) (offset : Int) :
    requestConns (get_pokemon_page_async srv c offset).2 = [HttpConn.sharedClient c] := by
  simp only [get_pokemon_page_async]
  split <;> simp [requestConns, connOf]

theorem requestConns_details_async (srv : Server) (c : Nat) (name : String) :
    requestConns (get_pokemon_details_async srv c name).2 = [HttpConn.sharedClient c] := by
  simp only [get_pokemon_details_async]
  split <;> simp [requestConns, connOf]

theorem filterMap_flatten_map_const {α β γ : Type} (f : β → Option γ) (l : List α)
    (g : α → List β) (cst : γ) (h : ∀ o ∈ l, (g o).filterMap f = [cst]) :
    ((l.map g).flatten).filterMap f = List.replicate l.length cst := by
  induction l with
  | nil => simp
  | cons a t ih =>
    simp only [List.map_cons, List.flatten_cons, List.filterMap_append, List.length_cons,
      List.replicate_succ]
    rw [h a (by simp), ih (fun o ho => h o (by simp [ho]))]
    rfl

theorem conns_names_async (srv : Server) (c : Nat) (max_pokemons : Option Int) :
    ∀ conn ∈ requestConns (get_pokemon_names_async srv c max_pokemons).2,
      conn = HttpConn.sharedClient c := by
  simp only [get_pokemon_names_async]
  split
  · simp [requestConns, connOf]
  · intro conn hconn
    rw [requestConns_append] at hconn
    rcases List.mem_append.mp hconn with h1 | h2
    · simpa [requestConns, connOf] using h1
    · have hchar : requestConns
          (((collectOffsets (cutoffOf srv max_pokemons)).map
            (get_pokemon_page_async srv c)).map Prod.snd).flatten =
          List.replicate (collectOffsets (cutoffOf srv max_pokemons)).length
            (HttpConn.sharedClient c) := by
        simp only [requestConns, List.map_map, Function.comp_def]
        exact filterMap_flatten_map_const connOf _ _ _
          (fun o _ => requestConns_page_async srv c o)
      rw [hchar] at h2
      exact List.eq_of_mem_replicate h2

theorem usesOneSharedSession_async (srv : Server) (number : Int) :
    usesOneSharedSession (get_pokemons_async srv number).2 = true := by
  simp only [get_pokemons_async]
  simp only [usesOneSharedSession]
  rw [List.getLast?_concat, List.dropLast_concat]
  simp only [requestConns_append, List.all_append]
  have hA : ((requestConns (get_pokemon_names_async srv 0 (some number)).2).all
      (fun conn => conn == HttpConn.sharedClient 0)) = true :=
    List.all_eq_true.mpr (fun conn hc => by
      rw [conns_names_async srv 0 (some number) conn hc]
      simp)
  have hB : ((requestConns
      ((((get_pokemon_names_async srv 0 (some number)).1.map
        (get_pokemon_details_async srv 0)).map Prod.snd).flatten)).all
      (fun conn => conn == HttpConn.sharedClient 0)) = true := by
    have hchar : requestConns
        ((((get_pokemon_names_async srv 0 (some number)).1.map
          (get_pokemon_details_async srv 0)).map Prod.snd).flatten) =
        List.replicate (get_pokemon_names_async srv 0 (some number)).1.length
          (HttpConn.sharedClient 0) := by
      simp only [requestConns, List.map_map, Function.comp_def]
      exact filterMap_flatten_map_const connOf _ _ _
        (fun nm _ => requestConns_details_async srv 0 nm)
    rw [hchar]
    exact List.all_eq_true.mpr (fun conn hc => by
      rw [List.eq_of_mem_replicate hc]
      simp)
  have hC : ((requestConns (savePokemons
      (((get_pokemon_names_async srv 0 (some number)).1.map
        (get_pokemon_details_async srv 0)).map Prod.fst) []).2).all
      (fun conn => conn == HttpConn.sharedClient 0)) = true := by
    have hnil : requestConns (savePokemons
        (((get_pokemon_names_async srv 0 (some number)).1.map
          (get_pokemon_details_async srv 0)).map Prod.fst) []).2 = [] :=
      savePokemons_filterMap_nil connOf (fun m => rfl) _ _
    rw [hnil]
    rfl
  rw [hA, hB, hC]
  simp

theorem requestConns_cons_log (m : String) (tr : List Event) :
    requestConns (Event.log m :: tr) = requestConns tr := by
  simp [requestConns, connOf]

theorem conns_page_sync (srv : Server) (k : Nat) (offset : Int) :
    requestConns (get_pokemon_page_sync srv k offset).2.1 = [HttpConn.freshSession k] ∧
    (get_pokemon_page_sync srv k offset).2.2 = k + 1 := by
  simp only [get_pokemon_page_sync]
  split <;> simp [requestConns, connOf]

theorem conns_details_sync (srv : Server) (k : Nat) (name : String) :
    requestConns (get_pokemon_details_sync srv k name).2.1 = [HttpConn.freshSession k] ∧
    (get_pokemon_details_sync srv k name).2.2 = k + 1 := by
  simp only [get_pokemon_details_sync]
  split <;> simp [requestConns, connOf]

theorem conns_namesLoopSync (srv : Server) (fuel : Nat) :
    ∀ (offset nb : Int) (k : Nat),
    k ≤ (namesLoopSync srv fuel offset nb k).2.2 ∧
    requestConns (namesLoopSync srv fuel offset nb k).2.1 =
      (List.range' k ((namesLoopSync srv fuel offset nb k).2.2 - k)).map
        HttpConn.freshSession := by
  induction fuel with
  | zero => intro offset nb k; simp [namesLoopSync, requestConns]
  | succ f ih =>
    intro offset nb k
    simp only [namesLoopSync]
    split
    · dsimp only
      obtain ⟨hp1, hp2⟩ := conns_page_sync srv k offset
      obtain ⟨hk, hconns⟩ := ih (offset + POKE_PER_PAGE) nb
        (get_pokemon_page_sync srv k offset).2.2
      rw [hp2] at hk hconns
      constructor
      · rw [hp2]; omega
      · rw [requestConns_append, hp1, hp2, hconns]
        have hsz : (namesLoopSync srv f (offset + POKE_PER_PAGE) nb (k + 1)).2.2 - k =
            ((namesLoopSync srv f (offset + POKE_PER_PAGE) nb (k + 1)).2.2 - (k + 1)) + 1 := by
          omega
        rw [hsz, List.range'_succ]
        rfl
    · simp [requestConns]

theorem conns_names_sync (srv : Server) (k : Nat) (max_pokemons : Option Int) :
    k ≤ (get_pokemon_names_sync srv k max_pokemons).2.2 ∧
    requestConns (get_pokemon_names_sync srv k max_pokemons).2.1 =
      (List.range' k ((get_pokemon_names_sync srv k max_pokemons).2.2 - k)).map
        HttpConn.freshSession := by
  simp only [get_pokemon_names_sync]
  split
  · dsimp only
    have h1 : k + 1 - k = 1 := by omega
    refine ⟨by omega, ?_⟩
    simp [requestConns, connOf, h1]
  · dsimp only
    obtain ⟨hk, hconns⟩ := conns_namesLoopSync srv (cutoffOf srv max_pokemons).toNat 0
      (cutoffOf srv max_pokemons) (k + 1)
    refine ⟨by omega, ?_⟩
    rw [requestConns_append, hconns]
    have hroot : requestConns [Event.request (HttpConn.freshSession k) Request.root] =
        [HttpConn.freshSession k] := by simp [requestConns, connOf]
    rw [hroot]
    have hsz : (namesLoopSync srv (cutoffOf srv max_pokemons).toNat 0
          (cutoffOf srv max_pokemons) (k + 1)).2.2 - k =
        ((namesLoopSync srv (cutoffOf srv max_pokemons).toNat 0
          (cutoffOf srv max_pokemons) (k + 1)).2.2 - (k + 1)) + 1 := by
      omega
    rw [hsz, List.range'_succ]
    rfl

theorem conns_pokemonsLoopSync (srv : Server) (names : List String) :
    ∀ (d : PokeDict) (k : Nat),
    k ≤ (pokemonsLoopSync srv names d k).2.2 ∧
    requestConns (pokemonsLoopSync srv names d k).2.1 =
      (List.range' k ((pokemonsLoopSync srv names d k).2.2 - k)).map
        HttpConn.freshSession := by
  induction names with
  | nil => intro d k; simp [pokemonsLoopSync, requestConns]
  | cons nm rest ih =>
    intro d k
    simp only [pokemonsLoopSync]
    obtain ⟨hd1, hd2⟩ := conns_details_sync srv k nm
    cases h : List.lookup "name" (get_pokemon_details_sync srv k nm).1 with
    | none =>
      simp only [h]
      have h1 : k + 1 - k = 1 := by omega
      refine ⟨by rw [hd2]; omega, ?_⟩
      rw [hd1, hd2, h1, List.range'_one]
      rfl
    | some nm2 =>
      simp only [h]
      obtain ⟨hk, hconns⟩ := ih (dictInsert d nm2 (get_pokemon_details_sync srv k nm).1)
        (get_pokemon_details_sync srv k nm).2.2
      rw [hd2] at hk hconns
      refine ⟨by rw [hd2]; omega, ?_⟩
      rw [hd2, requestConns_append, hd1, requestConns_cons_log, hconns]
      have hsz : (pokemonsLoopSync srv rest
            (dictInsert d nm2 (get_pokemon_details_sync srv k nm).1) (k + 1)).2.2 - k =
          ((pokemonsLoopSync srv rest
            (dictInsert d nm2 (get_pokemon_details_sync srv k nm).1) (k + 1)).2.2 - (k + 1)) + 1 := by
        omega
      rw [hsz, List.range'_succ]
      rfl

theorem conns_pokemons_sync (srv : Server) (number : Int) :
    requestConns (get_pokemons_sync srv number).2.1 =
      (List.range ((get_pokemons_sync srv number).2.2)).map HttpConn.freshSession := by
  simp only [get_pokemons_sync]
  obtain ⟨hk1, hc1⟩ := conns_names_sync srv 0 (some number)
  obtain ⟨hk2, hc2⟩ := conns_pokemonsLoopSync srv (get_pokemon_names_sync srv 0 (some number)).1
    [] (get_pokemon_names_sync srv 0 (some number)).2.2
  rw [requestConns_append, hc1, hc2, List.range_eq_range', ← List.map_append]
  congr 1
  have happ := List.range'_append 0 ((get_pokemon_names_sync srv 0 (some number)).2.2)
    ((pokemonsLoopSync srv (get_pokemon_names_sync srv 0 (some number)).1 []
      (get_pokemon_names_sync srv 0 (some number)).2.2).2.2 -
      (get_pokemon_names_sync srv 0 (some number)).2.2) 1
  simp only [Nat.one_mul, Nat.zero_add, Nat.sub_zero] at happ ⊢
  rw [happ]
  congr 1
  omega

/-! ### The result dictionary: keys match the own name field of each record -/

theorem lookup_map_replace (k : String) (v : DetailRec) :
    ∀ (d : PokeDict), d.any (fun p => p.1 = k) = true →
    List.lookup k (d.map (fun p => if p.1 = k then (k, v) else p)) = some v := by
  intro d
  induction d with
  | nil => intro h; simp at h
  | cons p t ih =>
    intro h
    obtain ⟨pk, pv⟩ := p
    by_cases hp : pk = k
    · subst hp
      simp only [List.map_cons]
      split
      · simp [List.lookup]
      · exact absurd trivial ‹¬True›
    · simp only [List.map_cons]
      rw [if_neg (by simpa using hp)]
      simp only [List.any_cons] at h
      have ht : t.any (fun p => p.1 = k) = true := by
        simpa [hp] using h
      have hbeq : (k == pk) = false := by simpa using Ne.symm hp
      simp [List.lookup, hbeq, ih ht]

theorem lookup_map_replace_ne (k k2 : String) (v : DetailRec) (h : k2 ≠ k) :
    ∀ (d : PokeDict),
    List.lookup k2 (d.map (fun p => if p.1 = k then (k, v) else p)) = List.lookup k2 d := by
  intro d
  induction d with
  | nil => simp
  | cons p t ih =>
    obtain ⟨pk, pv⟩ := p
    simp only [List.map_cons]
    by_cases hp : pk = k
    · subst hp
      rw [if_pos rfl]
      have hbeq : (k2 == pk) = false := by simpa using h
      simp [List.lookup, hbeq, ih]
    · rw [if_neg (by simpa using hp)]
      simp [List.lookup, ih]

theorem lookup_append_single (k : String) (v : DetailRec) :
    ∀ (d : PokeDict), (∀ p ∈ d, p.1 ≠ k) →
    List.lookup k (d ++ [(k, v)]) = some v := by
  intro d
  induction d with
  | nil => intro _; simp [List.lookup]
  | cons p t ih =>
    intro h
    obtain ⟨pk, pv⟩ := p
    have hpk : pk ≠ k := by simpa using h (pk, pv) (by simp)
    have hbeq : (k == pk) = false := by simpa using Ne.symm hpk
    simp only [List.cons_append]
    simp [List.lookup, hbeq, ih (fun q hq => h q (by simp [hq]))]

theorem lookup_append_single_ne (k k2 : String) (v : DetailRec) (h : k2 ≠ k) :
    ∀ (d : PokeDict), List.lookup k2 (d ++ [(k, v)]) = List.lookup k2 d := by
  intro d
  induction d with
  | nil =>
    have hbeq : (k2 == k) = false := by simpa using h
    simp [List.lookup, hbeq]
  | cons p t ih =>
    obtain ⟨pk, pv⟩ := p
    simp only [List.cons_append]
    simp [List.lookup, ih]

theorem lookup_dictInsert_self (d : PokeDict) (k : String) (v : DetailRec) :
    List.lookup k (dictInsert d k v) = some v := by
  unfold dictInsert
  split
  case isTrue h => exact lookup_map_replace k v d h
  case isFalse h =>
    refine lookup_append_single k v d ?_
    intro p hp
    by_contra hc
    exact h (List.any_eq_true.mpr ⟨p, hp, by simp [hc]⟩)

theorem lookup_dictInsert_ne (d : PokeDict) (k k2 : String) (v : DetailRec) (h : k2 ≠ k) :
    List.lookup k2 (dictInsert d k v) = List.lookup k2 d := by
  unfold dictInsert
  split
  · exact lookup_map_replace_ne k k2 v h d
  · exact lookup_append_single_ne k k2 v h d

theorem dictInsert_keysMatch (d : PokeDict) (k : String) (v : DetailRec)
    (hd : ∀ p ∈ d, List.lookup "name" p.2 = some p.1)
    (hv : List.lookup "name" v = some k) :
    ∀ p ∈ dictInsert d k v, List.lookup "name" p.2 = some p.1 := by
  unfold dictInsert
  split
  · intro p hp
    simp only [List.mem_map] at hp
    obtain ⟨q, hq, rfl⟩ := hp
    by_cases hqk : q.1 = k
    · simp [hqk, hv]
    · simp only [if_neg hqk]
      exact hd q hq
  · intro p hp
    rcases List.mem_append.mp hp with h1 | h2
    · exact hd p h1
    · simp only [List.mem_singleton] at h2
      subst h2
      simpa using hv

theorem savePokemons_keysMatch :
    ∀ (rs : List DetailRec) (d res : PokeDict),
    (∀ p ∈ d, List.lookup "name" p.2 = some p.1) →
    (savePokemons rs d).1 = Except.ok res →
    ∀ p ∈ res, List.lookup "name" p.2 = some p.1 := by
  intro rs
  induction rs with
  | nil =>
    intro d res hd h
    simp only [savePokemons] at h
    cases h
    exact hd
  | cons r t ih =>
    intro d res hd h
    simp only [savePokemons] at h
    cases hl : List.lookup "name" r with
    | none => rw [hl] at h; simp at h
    | some nm =>
      rw [hl] at h
      exact ih (dictInsert d nm r) res (dictInsert_keysMatch d nm r hd hl) h

theorem savePokemons_lookup_not_mem :
    ∀ (rs : List DetailRec) (d res : PokeDict) (nm : String),
    (savePokemons rs d).1 = Except.ok res →
    (∀ r ∈ rs, List.lookup "name" r ≠ some nm) →
    List.lookup nm res = List.lookup nm d := by
  intro rs
  induction rs with
  | nil =>
    intro d res nm h _
    simp only [savePokemons] at h
    cases h
    rfl
  | cons r t ih =>
    intro d res nm h hmem
    simp only [savePokemons] at h
    cases hl : List.lookup "name" r with
    | none => rw [hl] at h; simp at h
    | some nm2 =>
      rw [hl] at h
      have hne : nm ≠ nm2 := by
        intro hc
        exact hmem r (by simp) (by rw [hl, hc])
      rw [ih (dictInsert d nm2 r) res nm h (fun q hq => hmem q (by simp [hq])),
        lookup_dictInsert_ne d nm2 nm r hne]

theorem savePokemons_roundTrip :
    ∀ (rs : List DetailRec) (d res : PokeDict),
    (savePokemons rs d).1 = Except.ok res →
    rs.Pairwise (fun a b => List.lookup "name" a ≠ List.lookup "name" b) →
    ∀ r ∈ rs, ∀ nm, List.lookup "name" r = some nm → List.lookup nm res = some r := by
  intro rs
  induction rs with
  | nil => simp
  | cons r0 t ih =>
    intro d res h hpw r hr nm hnm
    simp only [savePokemons] at h
    obtain ⟨hhead, htail⟩ := List.pairwise_cons.mp hpw
    cases hl : List.lookup "name" r0 with
    | none => rw [hl] at h; simp at h
    | some nm0 =>
      rw [hl] at h
      dsimp only at h
      rcases List.mem_cons.mp hr with rfl | hrt
      · have hnm0 : nm0 = nm := by
          rw [hl] at hnm
          exact Option.some.inj hnm
        have hnotin : ∀ q ∈ t, List.lookup "name" q ≠ some nm := by
          intro q hq hc
          exact hhead q hq (by rw [hl, hnm0, hc])
        rw [savePokemons_lookup_not_mem t (dictInsert d nm0 r) res nm h hnotin, ← hnm0]
        exact lookup_dictInsert_self d nm0 r
      · exact ih (dictInsert d nm0 r0) res h htail r hrt nm hnm

/-! ### Concrete servers used as test oracles -/

/-- Mock server whose pages P0, P1, P2 hold `["a","b"]`, `["c","d"]`, `["e"]`
and whose root count is 25 (three offset windows). -/
def srvPages : Server :=
  { rootStatus := 200, rootCount := 25,
    pageStatus := fun _ => 200,
    pageNames := fun o => if o = 0 then ["a", "b"] else if o = 10 then ["c", "d"]
      else if o = 20 then ["e"] else [],
    detailStatus := fun _ => 200,
    detailFields := fun nm => [("name", nm)] }

/-- Mock server reporting `count = 3` with three well-behaved detail records. -/
def srvCount3 : Server :=
  { rootStatus := 200, rootCount := 3,
    pageStatus := fun _ => 200,
    pageNames := fun o => if o = 0 then ["a", "b", "c"] else [],
    detailStatus := fun _ => 200,
    detailFields := fun nm => [("name", nm)] }

/-- Mock server with ten names on every page. -/
def srvTen : Server :=
  { rootStatus := 200, rootCount := 1000,
    pageStatus := fun _ => 200,
    pageNames := fun _ => ["n0", "n1", "n2", "n3", "n4", "n5", "n6", "n7", "n8", "n9"],
    detailStatus := fun _ => 200,
    detailFields := fun nm => [("name", nm)] }

/-! ### Claim theorems -/

/-- C1: for every server behaviour the concurrent pipeline and the sequential
pipeline produce the same name list (both concatenate the pages in offset
order) and the same final name-to-record mapping outcome; in particular, on
the mocked pages `["a","b"]`, `["c","d"]`, `["e"]` both yield
`["a","b","c","d","e"]`, and on the count-3 server with details named
`a`, `b`, `c` both yield the mapping from each name to its record. -/
theorem C1_pipelines_equivalent (srv : Server) (c k : Nat) (max_pokemons : Option Int)
    (number : Int) :
    ((get_pokemon_names_sync srv k max_pokemons).1 =
      (get_pokemon_names_async srv c max_pokemons).1 ∧
     (get_pokemons_sync srv number).1 = (get_pokemons_async srv number).1) ∧
    ((get_pokemon_names_async srvPages 0 none).1 = ["a", "b", "c", "d", "e"] ∧
     (get_pokemon_names_sync srvPages 0 none).1 = ["a", "b", "c", "d", "e"]) ∧
    ((get_pokemons_async srvCount3 3).1 =
       Except.ok [("a", [("name", "a")]), ("b", [("name", "b")]), ("c", [("name", "c")])] ∧
     (get_pokemons_sync srvCount3 3).1 =
       Except.ok [("a", [("name", "a")]), ("b", [("name", "b")]), ("c", [("name", "c")])]) :=
  ⟨⟨get_pokemon_names_sync_fst srv k c max_pokemons, get_pokemons_fst_eq srv number⟩,
   by decide, by decide⟩

/-- C2: with every page full (exactly 10 names) and a successful root
request, the name listers return exactly `N` names when `0 < N` is a
multiple of the page size, and the names of all `⌈N/10⌉` pages — strictly
more than `N` names — when it is not: the last page is never trimmed. -/
theorem C2_name_lister_overfetch (srv : Server) (c k : Nat) (N : Nat)
    (hroot : srv.rootStatus = 200)
    (hN : 0 < N)
    (htotal : (N : Int) ≤ srv.rootCount)
    (hpage : ∀ o : Int, srv.pageStatus o = 200)
    (hlen : ∀ o : Int, (srv.pageNames o).length = 10) :
    ((N % 10 = 0 → (get_pokemon_names_async srv c (some (N : Int))).1.length = N) ∧
     (N % 10 ≠ 0 → N < (get_pokemon_names_async srv c (some (N : Int))).1.length) ∧
     (get_pokemon_names_async srv c (some (N : Int))).1.length = 10 * ((N + 9) / 10)) ∧
    (get_pokemon_names_sync srv k (some (N : Int))).1.length =
      (get_pokemon_names_async srv c (some (N : Int))).1.length := by
  have hlen10 := names_async_length srv c N hroot hpage hlen hN
  refine ⟨⟨?_, ?_, hlen10⟩, by rw [get_pokemon_names_sync_fst srv k c]⟩
  · intro hmod
    rw [hlen10]
    omega
  · intro hmod
    rw [hlen10]
    omega

/-- C2 witness: requesting 95 names from a server with full pages yields 100. -/
theorem C2_witness :
    (get_pokemon_names_async srvTen 0 (some ((95 : Nat) : Int))).1.length = 100 ∧
    (get_pokemon_names_async srvTen 0 (some ((90 : Nat) : Int))).1.length = 90 := by
  have h95 := C2_name_lister_overfetch srvTen 0 0 95 rfl (by omega) (by norm_num [srvTen])
    (fun o => rfl) (fun o => rfl)
  have h90 := C2_name_lister_overfetch srvTen 0 0 90 rfl (by omega) (by norm_num [srvTen])
    (fun o => rfl) (fun o => rfl)
  exact ⟨by rw [h95.1.2.2], h90.1.1 (by omega)⟩

/-- Mock server where the detail request of the only listed pokémon fails. -/
def srvC3 : Server :=
  { rootStatus := 200, rootCount := 1,
    pageStatus := fun _ => 200,
    pageNames := fun o => if o = 0 then ["a"] else [],
    detailStatus := fun _ => 500,
    detailFields := fun _ => [("name", "a")] }

/-- C3 (code bug): the claim — and the docstrings `Raises: None` — say a
failed detail request degrades to an empty record and the aggregator still
returns a mapping, but on this run the empty record produced by the failed
detail fetch makes `pokemons[poke_detail["name"]]` raise `KeyError("name")`
in both aggregators. -/
theorem C3_detail_failure_raises :
    (get_pokemon_names_async srvC3 0 (some 1)).1 = ["a"] ∧
    (get_pokemon_details_async srvC3 0 "a").1 = [] ∧
    (get_pokemons_async srvC3 1).1 = Except.error (PyError.keyError "name") ∧
    (get_pokemons_sync srvC3 1).1 = Except.error (PyError.keyError "name") := by
  decide

/-- Mock server where two URLs (`x`, `y`) return records that both carry the
name field `z`: the second insertion overwrites the first in the dictionary. -/
def srvC4 : Server :=
  { rootStatus := 200, rootCount := 2,
    pageStatus := fun _ => 200,
    pageNames := fun o => if o = 0 then ["x", "y"] else [],
    detailStatus := fun _ => 200,
    detailFields := fun nm => if nm = "x" then [("name", "z"), ("v", "1")]
      else if nm = "y" then [("name", "z"), ("v", "2")] else [] }

/-- C4 counterexample: the record fetched for `x` carries name `z`, yet the
final mapping at key `z` holds the record fetched for `y`, so
`result[d["name"]] == d` fails for a fetched record `d`. -/
theorem C4_counterexample :
    [("name", "z"), ("v", "1")] ∈ fetchedDetails srvC4 2 ∧
    List.lookup "name" [("name", "z"), ("v", "1")] = some "z" ∧
    (get_pokemons_async srvC4 2).1 =
      Except.ok [("z", [("name", "z"), ("v", "2")])] ∧
    (get_pokemons_sync srvC4 2).1 =
      Except.ok [("z", [("name", "z"), ("v", "2")])] ∧
    List.lookup "z" [("z", [("name", "z"), ("v", "2")])] ≠
      some [("name", "z"), ("v", "1")] := by
  decide

/-- C4 (amended): whenever an aggregator returns a mapping, every key equals
the `name` field of its own value; the sequential aggregator returns the
same mapping; and the round trip `result[d["name"]] = d` holds for every
fetched record `d` provided no two fetched records share a `name` field. -/
theorem C4_keys_match_records (srv : Server) (number : Int) (res : PokeDict)
    (hasync : (get_pokemons_async srv number).1 = Except.ok res) :
    (∀ p ∈ res, List.lookup "name" p.2 = some p.1) ∧
    (get_pokemons_sync srv number).1 = Except.ok res ∧
    ((fetchedDetails srv number).Pairwise
        (fun a b => List.lookup "name" a ≠ List.lookup "name" b) →
      ∀ d ∈ fetchedDetails srv number, ∀ nm, List.lookup "name" d = some nm →
        List.lookup nm res = some d) := by
  have hfd : (get_pokemons_async srv number).1 =
      (savePokemons (fetchedDetails srv number) []).1 := by
    simp [get_pokemons_async, fetchedDetails, List.map_map, Function.comp_def]
  have hsave : (savePokemons (fetchedDetails srv number) []).1 = Except.ok res := by
    rw [← hfd]
    exact hasync
  refine ⟨savePokemons_keysMatch _ [] res (by simp) hsave, ?_, ?_⟩
  · rw [get_pokemons_fst_eq]
    exact hasync
  · intro hpw d hd nm hnm
    exact savePokemons_roundTrip _ [] res hsave hpw d hd nm hnm

/-- C4 witness: on the count-3 server the records have pairwise-distinct
names and the round trip holds at `a`. -/
theorem C4_witness :
    (get_pokemons_sync srvCount3 3).1 =
      Except.ok [("a", [("name", "a")]), ("b", [("name", "b")]), ("c", [("name", "c")])] ∧
    List.lookup "a"
      [("a", [("name", "a")]), ("b", [("name", "b")]), ("c", [("name", "c")])] =
      some [("name", "a")] := by
  have h := C4_keys_match_records srvCount3 3
    [("a", [("name", "a")]), ("b", [("name", "b")]), ("c", [("name", "c")])] (by decide)
  exact ⟨h.2.1, h.2.2 (by decide) [("name", "a")] (by decide) "a" (by decide)⟩

/-- Mock server where the detail request for `a` fails while its sibling `b`
would succeed. -/
def srvC5 : Server :=
  { rootStatus := 200, rootCount := 2,
    pageStatus := fun _ => 200,
    pageNames := fun o => if o = 0 then ["a", "b"] else [],
    detailStatus := fun nm => if nm = "a" then 500 else 200,
    detailFields := fun nm => [("name", nm)] }

/-- C5 counterexample: in the sequential pipeline the failed detail request
for `a` (which yields the empty record and then `KeyError`) stops the
sibling detail request for `b` from ever being issued. -/
theorem C5_counterexample :
    (get_pokemon_names_sync srvC5 0 (some 2)).1 = ["a", "b"] ∧
    detailRequests (get_pokemons_sync srvC5 2).2.1 = ["a"] ∧
    "b" ∉ detailRequests (get_pokemons_sync srvC5 2).2.1 := by
  decide

/-- C5 (amended): every fetcher degrades a non-200 response to `[]` / `{}`
without raising; all page requests are still issued and the surviving pages
still contribute their names in both pipelines; the concurrent pipeline
still issues every detail request; but in the sequential pipeline the
`KeyError` following a failed detail fetch stops the remaining detail
requests (see the counterexample). -/
theorem C5_failure_isolation (srv : Server) (c k : Nat) (offset : Int) (name : String)
    (max_pokemons : Option Int) (number : Int)
    (hpage : srv.pageStatus offset ≠ 200)
    (hdetail : srv.detailStatus name ≠ 200)
    (hroot : srv.rootStatus = 200) :
    (get_pokemon_page_async srv c offset).1 = [] ∧
    (get_pokemon_page_sync srv k offset).1 = [] ∧
    (get_pokemon_details_async srv c name).1 = [] ∧
    (get_pokemon_details_sync srv k name).1 = [] ∧
    (get_pokemon_names_async srv c max_pokemons).1 =
      ((collectOffsets (cutoffOf srv max_pokemons)).map
        (fun o => (get_pokemon_page_async srv c o).1)).flatten ∧
    (get_pokemon_names_sync srv k max_pokemons).1 =
      (get_pokemon_names_async srv c max_pokemons).1 ∧
    pageRequests (get_pokemon_names_async srv c max_pokemons).2 =
      collectOffsets (cutoffOf srv max_pokemons) ∧
    pageRequests (get_pokemon_names_sync srv k max_pokemons).2.1 =
      collectOffsets (cutoffOf srv max_pokemons) ∧
    detailRequests (get_pokemons_async srv number).2 =
      (get_pokemon_names_async srv 0 (some number)).1 ∧
    (∀ (rest : List String) (d : PokeDict) (k2 : Nat),
      detailRequests (pokemonsLoopSync srv (name :: rest) d k2).2.1 = [name]) := by
  refine ⟨by simp [get_pokemon_page_async, hpage], by simp [get_pokemon_page_sync, hpage],
    by simp [get_pokemon_details_async, hdetail], by simp [get_pokemon_details_sync, hdetail],
    ?_, get_pokemon_names_sync_fst srv k c max_pokemons,
    pageRequests_names_async srv c max_pokemons hroot,
    pageRequests_names_sync srv k max_pokemons hroot,
    detailRequests_pokemons_async srv number, ?_⟩
  · simp only [get_pokemon_names_async]
    rw [if_neg (by simp [hroot])]
    simp [List.map_map, Function.comp_def]
  · intro rest d k2
    simp only [pokemonsLoopSync]
    have hempty : (get_pokemon_details_sync srv k2 name).1 = [] := by
      simp [get_pokemon_details_sync, hdetail]
    rw [hempty]
    simp only [List.lookup]
    exact detailRequests_details_sync srv k2 name

/-- Mock server with a failing middle page and one failing detail URL. -/
def srvC5W : Server :=
  { rootStatus := 200, rootCount := 25,
    pageStatus := fun o => if o = 10 then 500 else 200,
    pageNames := fun o => if o = 0 then ["a"] else if o = 10 then ["b"]
      else if o = 20 then ["c"] else [],
    detailStatus := fun nm => if nm = "z" then 404 else 200,
    detailFields := fun nm => [("name", nm)] }

/-- C5 witness: with the middle page failing, its siblings still contribute
`a` and `c`, all three page requests are issued, and the failing fetchers
return empty results. -/
theorem C5_witness :
    (get_pokemon_page_async srvC5W 0 10).1 = [] ∧
    (get_pokemon_details_async srvC5W 0 "z").1 = [] ∧
    pageRequests (get_pokemon_names_async srvC5W 0 (some 25)).2 = [0, 10, 20] ∧
    (get_pokemon_names_async srvC5W 0 (some 25)).1 = ["a", "c"] := by
  have h := C5_failure_isolation srvC5W 0 0 10 "z" (some 25) 25 (by decide) (by decide) rfl
  refine ⟨h.1, h.2.2.1, ?_, ?_⟩
  · rw [h.2.2.2.2.2.2.1]
    decide
  · rw [h.2.2.2.2.1]
    decide

/-- Minimal well-behaved server with one pokémon. -/
def srvC6 : Server :=
  { rootStatus := 200, rootCount := 1,
    pageStatus := fun _ => 200,
    pageNames := fun o => if o = 0 then ["a"] else [],
    detailStatus := fun _ => 200,
    detailFields := fun nm => [("name", nm)] }

/-- C6 counterexample: the sequential pipeline does not route its requests
through one shared session — its root request and its first page request
already use two different fresh `requests.get` connections. -/
theorem C6_counterexample :
    usesOneSharedSession (get_pokemons_sync srvC6 1).2.1 = false ∧
    HttpConn.freshSession 0 ∈ requestConns (get_pokemons_sync srvC6 1).2.1 ∧
    HttpConn.freshSession 1 ∈ requestConns (get_pokemons_sync srvC6 1).2.1 := by
  decide

/-- C6 (amended): the concurrent pipeline issues all its requests through
the one `AsyncClient` opened before the first request and closed after the
last; the sequential pipeline instead opens a fresh single-use session per
request (request number `i` uses session `i`), so its connections are
pairwise distinct and no session is shared. -/
theorem C6_session_usage (srv : Server) (number : Int) :
    usesOneSharedSession (get_pokemons_async srv number).2 = true ∧
    requestConns (get_pokemons_sync srv number).2.1 =
      (List.range (get_pokemons_sync srv number).2.2).map HttpConn.freshSession ∧
    (requestConns (get_pokemons_sync srv number).2.1).Nodup := by
  refine ⟨usesOneSharedSession_async srv number, conns_pokemons_sync srv number, ?_⟩
  rw [conns_pokemons_sync]
  exact (List.nodup_range _).map (fun a b h => by simpa using h)

/-- C7: both name listers first fetch the listing root; the pagination
cutoff is the root `count` when no maximum is supplied and the supplied
maximum otherwise; and the page requests issued are exactly the multiples
of the page size below that cutoff, in offset order. -/
theorem C7_cutoff_selection (srv : Server) (c k : Nat) (max_pokemons : Option Int)
    (hroot : srv.rootStatus = 200) :
    (get_pokemon_names_async srv c max_pokemons).2.head? =
      some (Event.request (HttpConn.sharedClient c) Request.root) ∧
    (get_pokemon_names_sync srv k max_pokemons).2.1.head? =
      some (Event.request (HttpConn.freshSession k) Request.root) ∧
    cutoffOf srv none = srv.rootCount ∧
    (∀ m : Int, cutoffOf srv (some m) = m) ∧
    pageRequests (get_pokemon_names_async srv c max_pokemons).2 =
      collectOffsets (cutoffOf srv max_pokemons) ∧
    pageRequests (get_pokemon_names_sync srv k max_pokemons).2.1 =
      collectOffsets (cutoffOf srv max_pokemons) ∧
    (∀ o : Int, o ∈ pageRequests (get_pokemon_names_async srv c max_pokemons).2 ↔
      ((∃ j : Nat, o = 10 * j) ∧ o < cutoffOf srv max_pokemons)) := by
  refine ⟨?_, ?_, rfl, fun m => rfl,
    pageRequests_names_async srv c max_pokemons hroot,
    pageRequests_names_sync srv k max_pokemons hroot, ?_⟩
  · simp only [get_pokemon_names_async]
    split <;> simp
  · simp only [get_pokemon_names_sync]
    split <;> simp
  · intro o
    rw [pageRequests_names_async srv c max_pokemons hroot]
    exact mem_collectOffsets (cutoffOf srv max_pokemons) o

/-- C7 witness: with a supplied maximum of 25 the page requests are at
offsets 0, 10 and 20 and the trace starts with the root request. -/
theorem C7_witness :
    pageRequests (get_pokemon_names_async srvPages 0 (some 25)).2 = [0, 10, 20] ∧
    (get_pokemon_names_async srvPages 0 (some 25)).2.head? =
      some (Event.request (HttpConn.sharedClient 0) Request.root) := by
  have h := C7_cutoff_selection srvPages 0 0 (some 25) rfl
  refine ⟨?_, h.1⟩
  rw [h.2.2.2.2.1]
  decide

/-- C8: when the root listing request fails, both name listers print the
diagnostic and return the empty list — even when a maximum was supplied so
the root `count` was not needed — and both aggregators consequently
return the empty mapping. -/
theorem C8_root_failure (srv : Server) (c k : Nat) (max_pokemons : Option Int)
    (number : Int) (hroot : srv.rootStatus ≠ 200) :
    get_pokemon_names_async srv c max_pokemons =
      ([], [Event.request (HttpConn.sharedClient c) Request.root,
            Event.log apiErrorMsg]) ∧
    get_pokemon_names_sync srv k max_pokemons =
      ([], [Event.request (HttpConn.freshSession k) Request.root,
            Event.log apiErrorMsg], k + 1) ∧
    (get_pokemons_async srv number).1 = Except.ok [] ∧
    (get_pokemons_sync srv number).1 = Except.ok [] := by
  refine ⟨?_, ?_, ?_, ?_⟩
  · simp [get_pokemon_names_async, hroot]
  · simp [get_pokemon_names_sync, hroot]
  · simp [get_pokemons_async, get_pokemon_names_async, hroot, savePokemons]
  · simp [get_pokemons_sync, get_pokemon_names_sync, hroot, pokemonsLoopSync]

/-- Server whose root listing endpoint answers 500. -/
def srvDown : Server :=
  { rootStatus := 500, rootCount := 100,
    pageStatus := fun _ => 200,
    pageNames := fun _ => ["a"],
    detailStatus := fun _ => 200,
    detailFields := fun nm => [("name", nm)] }

/-- C8 witness: against the broken-root server, the lister returns `[]`
(with the diagnostic logged) although a maximum was supplied, and the
aggregator returns the empty mapping. -/
theorem C8_witness :
    get_pokemon_names_async srvDown 0 (some 50) =
      ([], [Event.request (HttpConn.sharedClient 0) Request.root,
            Event.log apiErrorMsg]) ∧
    (get_pokemons_sync srvDown 50).1 = Except.ok [] := by
  have h := C8_root_failure srvDown 0 0 (some 50) 50 (by decide)
  exact ⟨h.1, h.2.2.2⟩

/-- C9: for a zero or negative requested count (and a healthy root
endpoint), the name listers issue no page requests and return `[]`, and the
aggregators issue no detail requests and return the empty mapping. -/
theorem C9_nonpositive_count (srv : Server) (c k : Nat) (number : Int)
    (hn : number ≤ 0) (hroot : srv.rootStatus = 200) :
    (get_pokemon_names_async srv c (some number)).1 = [] ∧
    pageRequests (get_pokemon_names_async srv c (some number)).2 = [] ∧
    (get_pokemon_names_sync srv k (some number)).1 = [] ∧
    pageRequests (get_pokemon_names_sync srv k (some number)).2.1 = [] ∧
    (get_pokemons_async srv number).1 = Except.ok [] ∧
    detailRequests (get_pokemons_async srv number).2 = [] ∧
    (get_pokemons_sync srv number).1 = Except.ok [] ∧
    detailRequests (get_pokemons_sync srv number).2.1 = [] := by
  have hcoll : collectOffsets number = [] := collectOffsets_nonpos number hn
  have hnames : (get_pokemon_names_async srv c (some number)).1 = [] := by
    simp only [get_pokemon_names_async]
    rw [if_neg (by simp [hroot])]
    simp [cutoffOf, hcoll]
  have hnames0 : (get_pokemon_names_async srv 0 (some number)).1 = [] := by
    simp only [get_pokemon_names_async]
    rw [if_neg (by simp [hroot])]
    simp [cutoffOf, hcoll]
  have hnamessync : (get_pokemon_names_sync srv 0 (some number)).1 = [] := by
    rw [get_pokemon_names_sync_fst srv 0 0]
    exact hnames0
  have hasync : (get_pokemons_async srv number).1 = Except.ok [] := by
    simp [get_pokemons_async, hnames0, savePokemons]
  refine ⟨hnames, ?_, ?_, ?_, hasync, ?_, ?_, ?_⟩
  · rw [pageRequests_names_async srv c (some number) hroot]
    simpa [cutoffOf] using hcoll
  · rw [get_pokemon_names_sync_fst srv k c]
    exact hnames
  · rw [pageRequests_names_sync srv k (some number) hroot]
    simpa [cutoffOf] using hcoll
  · rw [detailRequests_pokemons_async srv number]
    exact hnames0
  · rw [get_pokemons_fst_eq]
    exact hasync
  · simp only [get_pokemons_sync]
    rw [detailRequests_append, hnamessync, detailRequests_names_sync srv 0 (some number)]
    simp [pokemonsLoopSync, detailRequests]

/-- C9 witness: at a requested count of 0 (and a healthy server) nothing is
fetched beyond the root listing. -/
theorem C9_witness :
    (get_pokemon_names_async srvTen 0 (some 0)).1 = [] ∧
    (get_pokemons_async srvTen 0).1 = Except.ok [] ∧
    detailRequests (get_pokemons_async srvTen 0).2 = [] := by
  have h := C9_nonpositive_count srvTen 0 0 0 (by omega) rfl
  exact ⟨h.1, h.2.2.2.2.1, h.2.2.2.2.2.1⟩
